import Mathlib

/-!
Verification development for the og-missions-bot repository.

The definitions below are a shallow embedding of the Python source:
  * `app/services/ranking.py`      — rank table and `rank_for`
  * `app/services/karma_policy.py` — category/difficulty estimator and penalty policy
  * `app/services/karma.py`        — karma ledger operations over the store
  * `app/services/missions_service.py` — mission store transitions
  * `app/services/reminders.py`    — deadline reminder sweep
  * `app/services/ai_assistant.py` — free-text difficulty heuristic
  * `app/handlers/ui.py`, `app/handlers/missions.py` — the wired review/postpone
    handler cores (the database-effect part of the handlers; message rendering,
    chat transport and admin guards are presentation glue and stay outside the
    embedding, matching the spec's scoping).

SQLite rows are embedded as Lean structures, tables as lists (in insertion
order, which is the order SQLite returns them in for these unordered SELECTs),
timestamps as `Int` seconds, SQL NULL as `Option`.  Each operation takes the
current time `now` explicitly where the source calls `now_ts()`.
-/

namespace OgBot

/-! ## `app/services/ranking.py` -/

/-- `RANK_NAMES` from `ranking.py`: one step per +100 karma, last entry is the
1000+ top rank. -/
def RANK_NAMES : List String :=
  [ "🪙 Бродяга"
  , "🚬 Шпана"
  , "🧢 Дворовой"
  , "💼 Бывалый"
  , "🩸 Авторитет"
  , "💿 Mixtape Hustler"
  , "🔥 Уличный OG"
  , "💎 Платиновый Игрок"
  , "🦍 Big Ape"
  , "👑 Король Квартала"
  , "🕶 Легенда Улиц" ]

def NEGATIVE_RANK : String := "😈 АХУЕВШИЙ ТИП"

/-- `rank_for` from `ranking.py`.  The Python accepts `int | float | None` and
coerces with `int(karma or 0)`; the store always holds integers, so the
embedding takes `Int` (`None` corresponds to 0).  For `k ≥ 0` the Python
`k // 100` is floor division, which on non-negatives equals `Nat` division. -/
def rank_for (karma : Int) : String :=
  let k := karma
  if k < 0 then NEGATIVE_RANK
  else
    let idx := k.toNat / 100
    if idx ≥ RANK_NAMES.length then RANK_NAMES.getLastD NEGATIVE_RANK
    else RANK_NAMES.getD idx NEGATIVE_RANK

/-! ## `app/services/karma_policy.py` -/

/-- `CATEGORY_KEYWORDS` from `karma_policy.py`, in dict insertion order
(significant: `_match_category` takes the first matching category). -/
def CATEGORY_KEYWORDS : List (String × List String) :=
  [ ("housekeeping", ["мусор", "убор", "убрать", "помыть", "курьер", "донести", "перенести", "закупить"])
  , ("record",       ["запис", "вокал", "куплет", "дубл", "голос", "битовая", "флоу"])
  , ("mix",          ["свести", "микс", "эквал", "eq", "компресс", "master", "мастер", "мастеринг"])
  , ("video",        ["монтаж", "видео", "склей", "цветкор", "color", "титры", "саб", "субтитр"])
  , ("design",       ["обложка", "логотип", "баннер", "постер", "рендер", "нейрон", "промпт", "макет", "вектор"])
  , ("smm",          ["пост", "instagram", "инстаграм", "тизер", "снипет", "snippet", "shorts", "сторис"])
  , ("dev",          ["бот", "скрипт", "код", "python", "py", "api", "интеграция", "pipeline"]) ]

/-- `CATEGORY_BASE_DIFFICULTY` from `karma_policy.py` (association list;
`.get(cat, 2)` is embedded by `categoryBaseDifficulty`). -/
def CATEGORY_BASE_DIFFICULTY : List (String × Int) :=
  [ ("housekeeping", 1)
  , ("smm",          2)
  , ("design",       3)
  , ("record",       3)
  , ("video",        4)
  , ("dev",          4)
  , ("mix",          5) ]

def categoryBaseDifficulty (cat : String) : Int :=
  match CATEGORY_BASE_DIFFICULTY.find? (fun p => p.1 == cat) with
  | some p => p.2
  | none => 2

def URGENCY_BONUS_TODAY : Int := 1
def DECLINE_PENALTY : Int := -3
/-- `POSTPONE_PENALTIES = {1: 0, 2: -1, 3: -2}` from `karma_policy.py`. -/
def POSTPONE_PENALTIES : List (Int × Int) := [(1, 0), (2, -1), (3, -2)]
def REWORK_PENALTY : Int := -1

structure KarmaDecision where
  category : String
  difficulty : Int
  base_points : Int
  urgency_bonus : Int
  total_reward : Int
deriving DecidableEq, Repr

/-- Python `str.lower` restricted to the alphabets the keyword tables and bot
inputs use: ASCII letters and the Cyrillic block (А-Я → а-я, Ё → ё).  Other
characters are unchanged. -/
def pyLower (c : Char) : Char :=
  if 'A' ≤ c ∧ c ≤ 'Z' then Char.ofNat (c.toNat + 32)
  else if 0x410 ≤ c.toNat ∧ c.toNat ≤ 0x42F then Char.ofNat (c.toNat + 0x20)
  else if c.toNat = 0x401 then Char.ofNat 0x451
  else c

def pyLowerStr (s : String) : String := String.mk (s.data.map pyLower)

/-- Python `str.strip()` on the whitespace these texts use. -/
def stripChars (cs : List Char) : List Char :=
  ((cs.dropWhile Char.isWhitespace).reverse.dropWhile Char.isWhitespace).reverse

def strTrim (s : String) : String := String.mk (stripChars s.data)

/-- Python `\w` (regex word character) for the alphabets in use: ASCII
alphanumerics, underscore, and the Cyrillic block U+0400–U+04FF. -/
def isWordChar (c : Char) : Bool :=
  c.isAlphanum || c == '_' || (0x400 ≤ c.toNat && c.toNat ≤ 0x4FF)

/-- `w` is a literal prefix of `t`. -/
def charPrefix : List Char → List Char → Bool
  | [], _ => true
  | _ :: _, [] => false
  | a :: ws, b :: ts => a == b && charPrefix ws ts

/-- After a prefix match of `w` at the head of `t`, the `\b` on the right:
end of string or a non-word character. -/
def boundaryAfter (w t : List Char) : Bool :=
  match t.drop w.length with
  | [] => true
  | c :: _ => !isWordChar c

/-- `re.search(rf"\b{re.escape(w)}\b", s)`: scan `t` for an occurrence of the
literal `w` with word boundaries on both sides.  `prevWord` says whether the
character just before the current position is a word character (false at the
start of the string). -/
def searchWordAux (w : List Char) : Bool → List Char → Bool
  | _, [] => false
  | prevWord, c :: rest =>
    ((!prevWord) && charPrefix w (c :: rest) && boundaryAfter w (c :: rest))
    || searchWordAux w (isWordChar c) rest

def matchWord (w s : String) : Bool := searchWordAux w.data false s.data

/-- `_match_category` from `karma_policy.py`: lower-case the text, return the
first category one of whose keywords occurs as a whole word, defaulting to
`"housekeeping"`. -/
def matchCategory (text : String) : String :=
  let s := pyLowerStr text
  match CATEGORY_KEYWORDS.find? (fun p => p.2.any (fun w => matchWord w s)) with
  | some p => p.1
  | none => "housekeeping"

/-- `estimate` from `karma_policy.py`. -/
def estimate (text : String) (due_today : Bool) : KarmaDecision :=
  let cat := matchCategory text
  let diff := max 1 (min 5 (categoryBaseDifficulty cat))
  let diff := if text.length > 80 then min 5 (diff + 1) else diff
  let base := diff
  let bonus := if due_today then URGENCY_BONUS_TODAY else 0
  { category := cat
  , difficulty := diff
  , base_points := base
  , urgency_bonus := bonus
  , total_reward := base + bonus }

def decline_penalty : Int := DECLINE_PENALTY

/-- `postpone_penalty` from `karma_policy.py`: `POSTPONE_PENALTIES.get(days, -2)`. -/
def postpone_penalty (days : Int) : Int :=
  match POSTPONE_PENALTIES.find? (fun p => p.1 == days) with
  | some p => p.2
  | none => -2

def rework_penalty : Int := REWORK_PENALTY

/-- The inline day-tier penalty of `cb_postpone_days` in
`app/handlers/missions.py` (lines 461–462): the day count is clamped to 1..3
and the penalty is `0 if days == 1 else (-1 if days == 2 else -2)`. -/
def cbPostponeDaysPenalty (days : Int) : Int :=
  let days := max 1 (min 3 days)
  if days = 1 then 0 else if days = 2 then -1 else -2

/-! ## The store

Rows of the SQLite tables `users`, `missions`, `assignments`, `events` and
`karma_log`.  Identity/display columns that none of the embedded operations
read (`username`, `full_name`, `is_admin`, `active`, report payloads) are
omitted. -/

structure UserRow where
  tg_id : Int
  karma : Int
  rank : String
deriving DecidableEq, Repr

structure Mission where
  id : Int
  title : String
  description : String
  author_tg_id : Int
  deadline_ts : Option Int
  difficulty : Int
  difficulty_label : String
  status : String
  reminder_stage : String
  extension_count : Int
  created_at : Int
  closed_at : Option Int
deriving DecidableEq, Repr

structure Assignment where
  mission_id : Int
  assignee_tg_id : Int
  created_at : Int
deriving DecidableEq, Repr

/-- A JSON scalar inside an event payload (the payload dicts of this code hold
only integers and strings). -/
inductive JVal where
  | jint (n : Int)
  | jstr (s : String)
deriving DecidableEq, Repr

structure Event where
  kind : String
  payload : List (String × JVal)
  created_at : Int
deriving DecidableEq, Repr

structure LogEntry where
  tg_id : Int
  delta : Int
  reason : String
  created_at : Int
deriving DecidableEq, Repr

structure DB where
  users : List UserRow
  missions : List Mission
  assignments : List Assignment
  events : List Event
  karma_log : List LogEntry
deriving DecidableEq, Repr

/-! ## `app/services/karma.py` -/

/-- The `UPDATE users SET karma = COALESCE(karma,0) + ? WHERE tg_id=?` step of
`add_karma_tg` (the embedded `karma` column is not nullable, so the COALESCE
is the identity). -/
def applyDeltaUsers (tg_id delta : Int) (us : List UserRow) : List UserRow :=
  us.map fun u => if u.tg_id = tg_id then { u with karma := u.karma + delta } else u

/-- `_recompute_rank_by_tg` from `karma.py`: read the karma of the (first) row
with this `tg_id`; if present, set the rank of the rows with this `tg_id` to
`rank_for` of it.  Absent row: no-op. -/
def recomputeRankByTg (tg_id : Int) (us : List UserRow) : List UserRow :=
  match us.find? (fun u => u.tg_id == tg_id) with
  | some u =>
    us.map fun v => if v.tg_id = tg_id then { v with rank := rank_for u.karma } else v
  | none => us

/-- `add_karma_tg` from `karma.py`: append a `karma_log` entry, add the delta
to the user's materialized `karma` (no-op on the `users` table when no row has
this `tg_id` — the log entry is inserted regardless), then recompute the rank. -/
def add_karma_tg (now tg_id delta : Int) (reason : String) (db : DB) : DB :=
  { db with
    karma_log := db.karma_log ++ [⟨tg_id, delta, reason, now⟩]
    users := recomputeRankByTg tg_id (applyDeltaUsers tg_id delta db.users) }

/-- `reset_all_karma` from `karma.py`: zero every user's karma, reset the rank
to the base rank, and clear the whole log. -/
def reset_all_karma (db : DB) : DB :=
  { db with
    users := db.users.map fun u => { u with karma := 0, rank := "🪙 Бродяга" }
    karma_log := [] }

/-! ## `app/services/missions_service.py` -/

def set_status (mission_id : Int) (status : String) (db : DB) : DB :=
  { db with
    missions := db.missions.map fun m =>
      if m.id = mission_id then { m with status := status } else m }

def add_event (now : Int) (kind : String) (payload : List (String × JVal)) (db : DB) : DB :=
  { db with events := db.events ++ [⟨kind, payload, now⟩] }

def get_assignees_tg (mission_id : Int) (db : DB) : List Int :=
  (db.assignments.filter (fun a => a.mission_id == mission_id)).map (·.assignee_tg_id)

def set_reminder_stage (mission_id : Int) (stage : String) (db : DB) : DB :=
  { db with
    missions := db.missions.map fun m =>
      if m.id = mission_id then { m with reminder_stage := stage } else m }

/-- `postpone_days` from `missions_service.py`: clamp the day count to 1..3,
move the deadline by `days*24*3600` from its current value (from `now` when
NULL), bump `extension_count`, reset `reminder_stage`, charge the penalty to
every assignee through the ledger when it is non-zero, and log a
`postpone_days` event.  Returns `(ok, new_deadline)` next to the new store. -/
def postpone_days (now mission_id days by_tg_id penalty : Int) (db : DB) :
    (Bool × Option Int) × DB :=
  let days := max 1 (min 3 days)
  match db.missions.find? (fun m => m.id == mission_id) with
  | none => ((false, none), db)
  | some m =>
    let base := m.deadline_ts.getD now
    let new_deadline := base + days * 24 * 3600
    let db1 := { db with
      missions := db.missions.map fun x =>
        if x.id = mission_id then
          { x with deadline_ts := some new_deadline
                 , extension_count := x.extension_count + 1
                 , reminder_stage := "" }
        else x }
    let db2 :=
      if penalty ≠ 0 then
        (get_assignees_tg mission_id db1).foldl
          (fun d tg => add_karma_tg now tg penalty s!"Перенос дедлайна на {days} дн." d) db1
      else db1
    let db3 := add_event now "postpone_days"
      [ ("mission_id", .jint mission_id), ("by_tg_id", .jint by_tg_id)
      , ("days", .jint days), ("new_deadline", .jint new_deadline)
      , ("penalty", .jint penalty) ] db2
    ((true, some new_deadline), db3)

/-- `mark_overdue_and_penalize` from `missions_service.py`: look the mission
up (absent → return 0 and change nothing), penalty −4 when
`extension_count >= 1` else −3, charge it to every assignee through the
ledger, set status `OVERDUE` and `reminder_stage` `overdue`, log an `overdue`
event.  Returns the penalty. -/
def mark_overdue_and_penalize (now mission_id : Int) (db : DB) : Int × DB :=
  match db.missions.find? (fun m => m.id == mission_id) with
  | none => (0, db)
  | some m =>
    let ext := m.extension_count
    let penalty : Int := if ext ≥ 1 then -4 else -3
    let db1 := (get_assignees_tg mission_id db).foldl
      (fun d tg => add_karma_tg now tg penalty "Просрочка миссии" d) db
    let db2 := { db1 with
      missions := db1.missions.map fun x =>
        if x.id = mission_id then
          { x with status := "OVERDUE", reminder_stage := "overdue" }
        else x }
    let db3 := add_event now "overdue"
      [("mission_id", .jint mission_id), ("penalty", .jint penalty)] db2
    (penalty, db3)

/-- `approve_report` from `missions_service.py`: award
`int(difficulty or 1)` karma to every assignee through the ledger, set status
`DONE` with `closed_at = now`, and log a `review_approved` event.  Returns the
awarded difficulty.  (This service function has no caller in the repository;
the wired approve path is `cbReviewApproveCore` below.) -/
def approve_report (now mid reviewer_tg : Int) (db : DB) : Int × DB :=
  match db.missions.find? (fun m => m.id == mid) with
  | none => (0, db)
  | some m =>
    let diff := if m.difficulty = 0 then 1 else m.difficulty
    let ass := get_assignees_tg mid db
    let db1 := ass.foldl (fun d tg => add_karma_tg now tg diff "Отчёт принят" d) db
    let db2 := { db1 with
      missions := db1.missions.map fun x =>
        if x.id = mid then { x with status := "DONE", closed_at := some now } else x }
    let db3 := add_event now "review_approved"
      [("mission_id", .jint mid), ("by", .jint reviewer_tg), ("bonus", .jint diff)] db2
    (diff, db3)

/-- `reject_report` from `missions_service.py`: set status `REWORK` and log a
`review_rejected` event — no karma change, no deadline change.  (No caller in
the repository; the wired reject path is `takeRejectReasonCore` below.) -/
def reject_report (now mid reviewer_tg : Int) (reason : String) (db : DB) : DB :=
  add_event now "review_rejected"
    [("mission_id", .jint mid), ("by", .jint reviewer_tg), ("reason", .jstr reason)]
    (set_status mid "REWORK" db)

/-! ## `app/handlers/ui.py` — the wired review handlers

`cb_review_approve` / `cb_review_reject` are the handlers that actually
receive the `review:approve:*` / `review:reject:*` button callbacks (the `ui`
router is registered before the `missions` router in
`app/handlers/__init__.py`, and its `startswith` filters match first).  Only
their database effect is embedded; chat replies, keyboard editing and the
admin guard (a precondition of reaching the effect) are presentation glue.
The reason-collecting message handler `take_reject_reason` is embedded too,
but it is dead code — see the text-message dispatch model below. -/

/-- `_clamp_pts` from `ui.py`: `int(x or 1)` clamped to 1..5 (`None` and `0`
are falsy and become 1). -/
def clampPts (x : Option Int) : Int :=
  let v := match x with
    | none => 1
    | some n => if n = 0 then 1 else n
  max 1 (min 5 v)

/-- The `assignee_tg_id` of `_mission_row` in `ui.py`: the mission LEFT JOINed
with its assignments, `fetchone()` — the first assignment row, `int(... or 0)`
giving 0 when there is none. -/
def missionRowAssignee (mid : Int) (db : DB) : Int :=
  match (db.assignments.filter (fun a => a.mission_id == mid)).head? with
  | some a => a.assignee_tg_id
  | none => 0

/-- The store effect of `cb_review_approve` in `ui.py` on its primary path
(the karma service call succeeds): set status `DONE`, then award the clamped
difficulty to the single joined assignee through `add_karma_tg`.  No
`closed_at`, no `review_approved` event. -/
def cbReviewApproveCore (now mid : Int) (db : DB) : DB :=
  let row := db.missions.find? (fun m => m.id == mid)
  let db1 := set_status mid "DONE" db
  let assignee := missionRowAssignee mid db
  let pts := clampPts (row.map (·.difficulty))
  add_karma_tg now assignee pts s!"Миссия #{mid} выполнена" db1

/-- The store effect of `cb_review_approve` in `ui.py` on its fallback path
(the karma service raised): set status `DONE`, then run the direct SQL
`UPDATE users SET karma = COALESCE(karma,0) + ? WHERE tg_id = ?` — no
`karma_log` entry, no rank recomputation. -/
def cbReviewApproveFallbackCore (now mid : Int) (db : DB) : DB :=
  let row := db.missions.find? (fun m => m.id == mid)
  let db1 := set_status mid "DONE" db
  let assignee := missionRowAssignee mid db
  let pts := clampPts (row.map (·.difficulty))
  let _ := now
  { db1 with users := applyDeltaUsers assignee pts db1.users }

/-- The store effect that `take_reject_reason` (`ui.py` line 946) *would*
have, were it ever invoked: set status `REWORK`, then
`postpone_days(mid, 1, assignee, penalty=0)` — one day of grace, zero karma
penalty, a `postpone_days` event; no rework penalty, no `review_rejected`
event.  The handler is unreachable dead code: it is registered after the
catch-all text handler `ai_or_text_capture` (`ui.py` line 499) in the same
router, and aiogram stops at the first handler whose filters pass (the
`flags`/`block` annotations are inert metadata — no middleware in the
repository reads them and `SkipHandler` is never raised).  See
`textHandlerChain` below. -/
def takeRejectReasonCore (now mid : Int) (db : DB) : DB :=
  let assignee := missionRowAssignee mid db
  let db1 := set_status mid "REWORK" db
  (postpone_days now mid 1 assignee 0 db1).2

/-- `MENU_BUTTONS` from `ui.py` (a set in the source; only membership is
tested). -/
def MENU_BUTTONS : List String :=
  ["👑 Админ-панель", "🎯 Мои миссии", "🗂 Все миссии", "🏁 Таблица кармы", "➕ Дать миссию"]

/-- `ensure_user` from `missions_service.py`, as it acts on the embedded
columns: a missing `users` row is inserted with karma 0 and the base rank;
an existing row only has its `username`/`full_name` identity columns
refreshed, which are outside the embedded `UserRow`, so the store is
unchanged. -/
def ensure_user (now tg_id : Int) (db : DB) : DB :=
  let _ := now
  match db.users.find? (fun u => u.tg_id == tg_id) with
  | some _ => db
  | none => { db with users := db.users ++ [⟨tg_id, 0, "🪙 Бродяга"⟩] }

/-- The mission-store effect of `ai_or_text_capture` (`ui.py` line 499), the
catch-all text handler that consumes every plain text message, including the
reason an admin types after `cb_review_reject`: menu-button texts are
ignored; when the sender is not in the "awaiting AI mission text" state
(`await_ai_text` in the per-user settings blob, passed in here) it returns
after at most clearing side-state keys in that blob; otherwise its only
mission-store write is `ensure_user` for the sender — the AI draft it then
builds goes into the settings blob, and its replies are chat messages.  It
never touches `missions`, `events` or `karma_log`. -/
def aiOrTextCaptureCore (now actor_tg : Int) (text : String) (await_ai_text : Bool)
    (db : DB) : DB :=
  if MENU_BUTTONS.contains (strTrim text) then db
  else if !await_ai_text then db
  else ensure_user now actor_tg db

/-- The mission-store effect of `cb_review_reject` (`ui.py` lines 930–944):
after validating the mission and the admin, the handler writes
`await_reject_reason_for_mid` into the per-user state blob (the `settings`
table — spec §9's "pending interaction" bag, outside the mission store) and
asks for a reason in chat.  Its body contains no statement against `users`,
`missions`, `assignments`, `events` or `karma_log`. -/
def cbReviewRejectCore (db : DB) : DB := db

/-- The `@router.message` handlers a plain text message can meet, in
dispatcher order (`register`: `start` router, then `ui`), each with its
filter: `start_cmd` (`start.py`, `F.text == "/start"`), the five exact
menu-button handlers (`ui.py` lines 341–431), `ai_or_text_capture` (line
499, `F.content_type == ContentType.TEXT` — true of every text message),
`receive_report` (line 773, `_REPORTABLE` includes TEXT), and
`take_reject_reason` (line 946, `F.text` — truthy text).  aiogram invokes the
first handler whose filters pass and stops there; later handlers, and the
`missions`/`admin_users` routers after them, are reached only if every
earlier filter fails. -/
inductive UiTextHandler where
  | startCmd
  | myMissions
  | allMissions
  | karmaBoard
  | adminPanel
  | addMission
  | aiOrTextCapture
  | receiveReport
  | takeRejectReason
deriving DecidableEq, Repr

def textHandlerChain : List (UiTextHandler × (String → Bool)) :=
  [ (.startCmd, fun t => t == "/start")
  , (.myMissions, fun t => t == "🎯 Мои миссии")
  , (.allMissions, fun t => t == "🗂 Все миссии")
  , (.karmaBoard, fun t => t == "🏁 Таблица кармы")
  , (.adminPanel, fun t => t == "👑 Админ-панель")
  , (.addMission, fun t => t == "➕ Дать миссию")
  , (.aiOrTextCapture, fun _ => true)
  , (.receiveReport, fun _ => true)
  , (.takeRejectReason, fun t => !(t == "")) ]

/-- First-match dispatch of a text message over `textHandlerChain`. -/
def dispatchText (t : String) : Option UiTextHandler :=
  (textHandlerChain.find? (fun p => p.2 t)).map (·.1)

/-! ## `app/services/reminders.py` -/

/-- `STAGES` from `reminders.py`: stage code, threshold in seconds, DM
template. -/
def STAGES : List (String × Int × String) :=
  [ ("24h", 24 * 3600, "⏰ 24 часа до дедлайна по «{title}» (до {deadline}). Поднажми, бро.")
  , ("5h", 5 * 3600, "⏰ Осталось 5 часов по «{title}» (до {deadline}). Если не вывозишь — жми «⏳ Перенести» (−1 карма).")
  , ("1h", 1 * 3600, "⏰ Час до дедлайна по «{title}» (до {deadline}). Финальный спурт!") ]

/-- The `stage_order` dict of the loop body, with its `.get(stage, 0)`
default. -/
def stageOrder (stage : String) : Int :=
  if stage = "" then 0
  else if stage = "24h" then 1
  else if stage = "5h" then 2
  else if stage = "1h" then 3
  else if stage = "overdue" then 99
  else 0

/-- The `for idx,(code,sec,tmpl) in enumerate(STAGES, start=1)` loop: the
first stage (in 24h → 5h → 1h order) with `left <= sec and cur_idx < idx`,
if any. -/
def pickStageAux (left curIdx i : Int) :
    List (String × Int × String) → Option String
  | [] => none
  | (code, sec, _) :: rest =>
    if left ≤ sec ∧ curIdx < i then some code
    else pickStageAux left curIdx (i + 1) rest

def pickStage (left curIdx : Int) : Option String :=
  pickStageAux left curIdx 1 STAGES

/-- One reminder notification: the mission it is about, the stage code whose
template was rendered (`"overdue"` for the missed-deadline message), the DM
recipients, and whether a copy also went to the group chat.  The rendered
text (`str.format` + local-time `strftime`) is presentation and not
embedded. -/
structure SentMsg where
  mission_id : Int
  code : String
  recipients : List Int
  group_copy : Bool
deriving DecidableEq, Repr

/-- The `status IN ('OPEN','IN_PROGRESS','WAIT_REPORT','REVIEW')` test of
`_fetch_active_missions`. -/
def activeStatusB (s : String) : Bool :=
  s == "OPEN" || s == "IN_PROGRESS" || s == "WAIT_REPORT" || s == "REVIEW"

/-- `_fetch_active_missions` from `reminders.py`: missions with a non-NULL
deadline in one of the four active statuses. -/
def fetchActiveMissions (db : DB) : List Mission :=
  db.missions.filter fun m => m.deadline_ts.isSome && activeStatusB m.status

/-- The per-mission body of `start_reminders_loop`, fed one snapshot row `m`:
if the deadline has passed and the stage is not yet `overdue`, run
`mark_overdue_and_penalize`, DM the assignees (plus a group copy) and set the
stage to `overdue`; otherwise send (at most) the first applicable not-yet-sent
stage reminder and record that stage. -/
def sweepItem (now : Int) (st : DB × List SentMsg) (m : Mission) : DB × List SentMsg :=
  let db := st.1
  let dl := m.deadline_ts.getD 0
  let stage := strTrim m.reminder_stage
  let left := dl - now
  if left ≤ 0 ∧ stage ≠ "overdue" then
    let pr := mark_overdue_and_penalize now m.id db
    let msg : SentMsg := ⟨m.id, "overdue", get_assignees_tg m.id pr.2, true⟩
    (set_reminder_stage m.id "overdue" pr.2, st.2 ++ [msg])
  else
    match pickStage left (stageOrder stage) with
    | some code =>
      (set_reminder_stage m.id code db, st.2 ++ [⟨m.id, code, get_assignees_tg m.id db, false⟩])
    | none => (db, st.2)

/-- One full pass of the `while True` loop of `start_reminders_loop`: snapshot
the active missions, then process each row in order against the evolving
store. -/
def sweepOnce (now : Int) (db : DB) : DB × List SentMsg :=
  (fetchActiveMissions db).foldl (sweepItem now) (db, [])

/-! ## `app/services/ai_assistant.py` — text normalization -/


/-- NFKD decomposition on the character repertoire these texts use (ASCII and
Cyrillic after lower-casing): only `ё` (→ `е` + U+0308) and `й` (→ `и` +
U+0306) decompose; everything else is its own normal form. -/
def nfkdChar (c : Char) : List Char :=
  if c = 'ё' then ['е', Char.ofNat 0x308]
  else if c = 'й' then ['и', Char.ofNat 0x306]
  else [c]

/-- `_normalize_text` from `ai_assistant.py`: `s.lower().strip()`, NFKD, then
`.replace("ё","е").replace("й","и")` (the two replaces act on the decomposed
string, where no precomposed `ё`/`й` remains). -/
def normalizeText (s : String) : String :=
  let cs := s.data.map pyLower
  let cs := stripChars cs
  let cs := cs.flatMap nfkdChar
  let cs := cs.map fun c => if c = 'ё' then 'е' else c
  let cs := cs.map fun c => if c = 'й' then 'и' else c
  String.mk cs

/-- A character of the `_tokenize` token class `[a-zа-я0-9]`. -/
def tokenChar (c : Char) : Bool :=
  ('a' ≤ c && c ≤ 'z') || ('а' ≤ c && c ≤ 'я') || ('0' ≤ c && c ≤ '9')

/-- Maximal runs of `tokenChar` (the `re.findall(r"[a-zа-я0-9]+", s)` of
`_tokenize`); `acc` holds the reversed current run. -/
def tokenizeAux : List Char → List Char → List (List Char)
  | acc, [] => if acc.isEmpty then [] else [acc.reverse]
  | acc, c :: rest =>
    if tokenChar c then tokenizeAux (c :: acc) rest
    else if acc.isEmpty then tokenizeAux [] rest
    else acc.reverse :: tokenizeAux [] rest

/-- `_tokenize` from `ai_assistant.py` (normalizes, then splits). -/
def tokenize (s : String) : List (List Char) := tokenizeAux [] (normalizeText s).data

def joinSpace (toks : List (List Char)) : List Char := List.intercalate [' '] toks

/-- Python's `pat in t` substring test. -/
def containsSub (pat : List Char) : List Char → Bool
  | [] => charPrefix pat []
  | c :: rest => charPrefix pat (c :: rest) || containsSub pat rest

/-! `difflib.SequenceMatcher` (no junk: both inputs here are far below the
200-element autojunk threshold), as used by `_fuzzy_contains`. -/

/-- Length of the common prefix of two lists. -/
def commonRun : List Char → List Char → Nat
  | x :: xs, y :: ys => if x == y then commonRun xs ys + 1 else 0
  | _, _ => 0

/-- `find_longest_match` over whole lists: the longest `(i, j, k)` with
`a[i:i+k] = b[j:j+k]`; among maxima the one with the smallest `i`, then the
smallest `j` (the enumeration is `i`-ascending then `j`-ascending and only a
strictly longer run replaces the best). -/
def longestMatch (a b : List Char) : Nat × Nat × Nat :=
  let cands := (List.range a.length).flatMap fun i =>
    (List.range b.length).map fun j => (i, j, commonRun (a.drop i) (b.drop j))
  cands.foldl (fun best p => if p.2.2 > best.2.2 then p else best) (0, 0, 0)

/-- Total size of the matching blocks (the `M` of `ratio`): recursively take
the longest match and recurse on the pieces to its left and right.  `fuel`
only bounds the recursion depth; `a.length + b.length + 1` always suffices
because every recursive call strictly shrinks the combined length. -/
def matchTotal (fuel : Nat) (a b : List Char) : Nat :=
  match fuel with
  | 0 => 0
  | fuel + 1 =>
    let t := longestMatch a b
    let i := t.1
    let j := t.2.1
    let k := t.2.2
    if k = 0 then 0
    else k + matchTotal fuel (a.take i) (b.take j)
           + matchTotal fuel (a.drop (i + k)) (b.drop (j + k))

/-- `SequenceMatcher(None, a, b).ratio() >= 0.78`: `2M/T >= 0.78` compared
exactly as `200*M >= 78*T`.  (The float comparison of the source agrees: for
the short strings involved, `2.0*M/T` and the literal `0.78` never fall in
the same rounding gap unless `2M/T = 39/50` exactly, where both sides round
to the same float.) -/
def ratioGe78 (a b : List Char) : Bool :=
  let m := matchTotal (a.length + b.length + 1) a b
  200 * m ≥ 78 * (a.length + b.length)

/-- The 1–4-token sliding windows of `_fuzzy_contains` (for each `n`,
`range(0, len(toks) - n + 1)` is empty when fewer than `n` tokens exist). -/
def windowsOf (toks : List (List Char)) : List (List Char) :=
  [1, 2, 3, 4].flatMap fun n =>
    if n ≤ toks.length then
      (List.range (toks.length - n + 1)).map fun i => joinSpace ((toks.drop i).take n)
    else []

/-- `_fuzzy_contains` from `ai_assistant.py` (default threshold 0.78): exact
substring containment of the normalized variant in the joined tokens first,
then a fuzzy window match. -/
def fuzzyContains (text : String) (variants : List String) : Bool :=
  let toks := tokenize text
  if toks.isEmpty then false
  else
    let windows := windowsOf toks
    let joined := joinSpace toks
    variants.any fun v =>
      let vNorm := joinSpace (tokenize v)
      if vNorm.isEmpty then false
      else containsSub vNorm joined || windows.any (fun w => ratioGe78 w vNorm)

/-! ## `app/services/ai_assistant.py` — category phrase tables -/

def HOUSEHOLD : List String :=
  [ "вынеси мусор", "вынести мусор", "мусор", "убор", "убрать", "уборка"
  , "помыть", "помыть пол", "помыть полы", "мытье полов", "мытьё полов"
  , "подмести", "пропылесосить", "посуду", "помыть посуду"
  , "унитаз", "раковину", "ванну", "окна", "помыть окна"
  , "купить продукты", "закупиться", "магазин"
  , "полить цветы", "полей цветы", "цветы"
  , "покормить", "корм", "животное", "собаку", "кошку", "агаму", "рыбок" ]

def COVER : List String :=
  ["обложк", "cover", "арт", "artwork", "обложка к треку", "дизайн обложки"]

def RECORD : List String :=
  [ "записать трек", "записать вокал", "записать куплет"
  , "запись трека", "record", "вокал записать" ]

def MIX : List String :=
  [ "свести трек", "свести трэк", "сведение", "сведение трека"
  , "микс", "миксдаун", "mix", "mixdown"
  , "мастер", "мастеринг", "master", "mastering" ]

def BEAT : List String :=
  ["сделать бит", "бит сделать", "биток", "beat", "инструментал"]

def FULL_TRACK : List String :=
  ["полностью сделать трек", "бит + запись + сведение", "с нуля трек", "фулл трек", "full track"]

def PUBLISH : List String :=
  [ "опубликов", "вылож", "залей", "загруз", "на площадк", "на dsp"
  , "spotify", "apple music", "yandex music", "boom", "vk music" ]

def SNIPPET : List String :=
  ["сниппет", "снип", "тизер", "shorts", "шортс", "reels", "рилс", "шорт"]

def SHOOT_LOCATION : List String :=
  ["отснять локацию", "снять локацию", "локация", "выезд на локацию", "локации"]

def APPEAR_LOCATION : List String :=
  ["сняться", "снимись", "быть в кадре", "участвовать в съемке", "участвовать в съёмке"]

def FILMING : List String :=
  ["снимать", "съемка", "съёмка", "снять материал", "наснимай", "наотснимай", "оператор"]

def EDITING : List String :=
  ["смонтировать", "монтаж", "порезать", "нарезка", "склейка", "видео монтаж", "videomontage"]

def COLOR : List String :=
  ["цветокор", "color", "color grading", "grading", "покрас", "коррекция цвета"]

def SCRIPT : List String :=
  ["сценарий", "техзадание", "тз", "раскадровка", "сториборд", "treatment", "идея"]

def GEAR : List String :=
  [ "оборудование", "освет", "свет", "микрофон", "рекордер", "штатив", "стедикам"
  , "гимбал", "аренда техники", "подготовить студию" ]

/-- `_NUM_WORDS` from `ai_assistant.py`, in dict order. -/
def NUM_WORDS : List (String × Nat) :=
  [ ("два", 2), ("две", 2), ("три", 3), ("четыре", 4), ("пять", 5)
  , ("шесть", 6), ("семь", 7), ("восемь", 8), ("девять", 9), ("десять", 10) ]

/-! ## `app/services/ai_assistant.py` — snippet counting -/

def isDigitCh (c : Char) : Bool := '0' ≤ c && c ≤ '9'

def digitVal (c : Char) : Nat := c.toNat - '0'.toNat

def wordRunLen (l : List Char) : Nat := (l.takeWhile isWordChar).length

/-- The snippet-word alternation
`сниппет\w*|снип\w*|тизер\w*|шортс?\w*|shorts?|reels?` matched at the head of
`t` (branches tried in regex order); returns the number of characters the
match consumes.  The optional `с` of `шортс?` is a word character, so
`шортс?\w*` consumes `шорт` plus the following word-character run. -/
def matchSnippetWordAt (t : List Char) : Option Nat :=
  if charPrefix "сниппет".data t then some (7 + wordRunLen (t.drop 7))
  else if charPrefix "снип".data t then some (4 + wordRunLen (t.drop 4))
  else if charPrefix "тизер".data t then some (5 + wordRunLen (t.drop 5))
  else if charPrefix "шорт".data t then some (4 + wordRunLen (t.drop 4))
  else if charPrefix "short".data t then
    some (5 + (if charPrefix ['s'] (t.drop 5) then 1 else 0))
  else if charPrefix "reel".data t then
    some (4 + (if charPrefix ['s'] (t.drop 4) then 1 else 0))
  else none

/-- `_SNIPPET_COUNT_RE.finditer`: the `group(1)` values of the non-overlapping
matches of `(?<!\d)(\d{1,2})\s*(<snippet words>)`, scanning left to right.
`prevDigit` is whether the previous character is a digit (the lookbehind);
`skip` forbids match attempts inside an already consumed match.  When two
digits are available the one-digit backtrack can never succeed (the next
character is then a digit and no alternation branch starts with one), so the
greedy two-digit take is final. -/
def scanCountAux : Bool → Nat → List Char → List Nat
  | _, _, [] => []
  | prevDigit, skip, c :: rest =>
    if skip ≠ 0 then scanCountAux (isDigitCh c) (skip - 1) rest
    else if prevDigit || !isDigitCh c then scanCountAux (isDigitCh c) 0 rest
    else
      let twoDigits := match rest with
        | d :: _ => isDigitCh d
        | [] => false
      let numLen := if twoDigits then 2 else 1
      let v := if twoDigits then 10 * digitVal c + digitVal (rest.headD '0') else digitVal c
      let afterNum := (c :: rest).drop numLen
      let ws := (afterNum.takeWhile Char.isWhitespace).length
      match matchSnippetWordAt (afterNum.drop ws) with
      | some consumed => v :: scanCountAux (isDigitCh c) (numLen + ws + consumed - 1) rest
      | none => scanCountAux (isDigitCh c) 0 rest

/-- The `\b(<number word>)\b` head of `_SNIPPET_WORDCOUNT_RE` at the head of
`t` (the left `\b` is the caller's `prevWord` check): value and matched
length.  No number word is a prefix of another, so at most one branch
matches. -/
def matchNumWordAt (t : List Char) : Option (Nat × Nat) :=
  (NUM_WORDS.find? fun p => charPrefix p.1.data t && boundaryAfter p.1.data t).map
    fun p => (p.2, p.1.length)

/-- `_SNIPPET_WORDCOUNT_RE.finditer`: the number-word values of the
non-overlapping matches of `\b(<number words>)\b\s*(<snippet words>)`.  Every
snippet-word match ends in a word character, so after a match the next
attempt position never satisfies the left `\b` anyway; `skip` still forbids
overlapping matches. -/
def scanNumWordAux : Bool → Nat → List Char → List Nat
  | _, _, [] => []
  | prevWord, skip, c :: rest =>
    if skip ≠ 0 then scanNumWordAux (isWordChar c) (skip - 1) rest
    else if prevWord then scanNumWordAux (isWordChar c) 0 rest
    else
      match matchNumWordAt (c :: rest) with
      | some pr =>
        let afterNum := (c :: rest).drop pr.2
        let ws := (afterNum.takeWhile Char.isWhitespace).length
        match matchSnippetWordAt (afterNum.drop ws) with
        | some consumed =>
          pr.1 :: scanNumWordAux (isWordChar c) (pr.2 + ws + consumed - 1) rest
        | none => scanNumWordAux (isWordChar c) 0 rest
      | none => scanNumWordAux (isWordChar c) 0 rest

/-- Python `t.count(pat)`: number of non-overlapping occurrences. -/
def countOccurAux (pat : List Char) : Nat → List Char → Nat
  | _, [] => 0
  | skip, c :: rest =>
    if skip ≠ 0 then countOccurAux pat (skip - 1) rest
    else if charPrefix pat (c :: rest) then 1 + countOccurAux pat (pat.length - 1) rest
    else countOccurAux pat 0 rest

/-- `_count_snippets` from `ai_assistant.py`: the maximum explicit count from
the two regexes; when neither matched but a snippet keyword occurs, the total
keyword occurrence count clamped to 1..5 (`set(SNIPPET)` has no duplicates,
so summing over the tuple is the same sum). -/
def countSnippets (text : String) : Nat :=
  let t := (normalizeText text).data
  let n1 := (scanCountAux false 0 t).foldl max 0
  let n := (scanNumWordAux false 0 t).foldl max n1
  if n = 0 && SNIPPET.any (fun k => containsSub k.data t) then
    let occ := (SNIPPET.map fun k => countOccurAux k.data 0 t).sum
    max 1 (min occ 5)
  else n

/-- `_difficulty_from_text` from `ai_assistant.py`: priority scale 1..5 with
the full-track check first, then the explicit snippet count, then the fuzzy
category chain, then the keyword/length fallback.  (`"съёмк"` is listed in
the fallback keywords exactly as in the source; after NFKD normalization it
can never occur in `t`.) -/
def difficultyFromText (text : String) : Nat :=
  let t := normalizeText text
  if fuzzyContains t FULL_TRACK then 5
  else
    let sn := countSnippets t
    if sn > 0 then max 1 (min 5 sn)
    else if fuzzyContains t SHOOT_LOCATION && !containsSub "снятс".data t.data then 3
    else if fuzzyContains t APPEAR_LOCATION && containsSub "локац".data t.data then 2
    else if fuzzyContains t FILMING && !containsSub "снятс".data t.data then 3
    else if fuzzyContains t EDITING then 3
    else if fuzzyContains t COLOR then 3
    else if fuzzyContains t SCRIPT then 3
    else if fuzzyContains t GEAR then (if t.length > 60 then 3 else 2)
    else if fuzzyContains t MIX then 4
    else if fuzzyContains t RECORD then 4
    else if fuzzyContains t COVER then 2
    else if fuzzyContains t PUBLISH then 1
    else if fuzzyContains t HOUSEHOLD then 1
    else if fuzzyContains t BEAT then 2
    else
      let base := 1
      let base :=
        if ["интеграци", "аналит", "скрипт", "бот", "сценари", "съемк", "съёмк"
           , "монтаж", "цветокор"].any (fun k => containsSub k.data t.data) then
          base + 1
        else base
      let base := if t.length > 140 then base + 1 else base
      max 1 (min 5 base)

/-! ## The ledger invariant (spec §4.1): the materialized balance is the log sum -/

def sumDeltas (log : List LogEntry) (tg : Int) : Int :=
  ((log.filter fun e => e.tg_id == tg).map (·.delta)).sum

/-- Every user's stored `karma` equals the sum of that user's `karma_log`
deltas. -/
def LedgerInv (db : DB) : Prop :=
  ∀ u ∈ db.users, u.karma = sumDeltas db.karma_log u.tg_id

instance decLedgerInv (db : DB) : Decidable (LedgerInv db) :=
  inferInstanceAs (Decidable (∀ u ∈ db.users, u.karma = sumDeltas db.karma_log u.tg_id))

/-! ## Helper lemmas -/

lemma sumDeltas_append (l1 l2 : List LogEntry) (tg : Int) :
    sumDeltas (l1 ++ l2) tg = sumDeltas l1 tg + sumDeltas l2 tg := by
  simp [sumDeltas, List.filter_append]

lemma sumDeltas_single (e : LogEntry) (tg : Int) :
    sumDeltas [e] tg = if e.tg_id = tg then e.delta else 0 := by
  by_cases h : e.tg_id = tg
  · simp [sumDeltas, List.filter, h]
  · have hb : (e.tg_id == tg) = false := beq_eq_false_iff_ne.mpr h
    simp [sumDeltas, List.filter, hb, h]

lemma add_karma_tg_missions (now tg δ : Int) (r : String) (db : DB) :
    (add_karma_tg now tg δ r db).missions = db.missions := rfl

lemma add_karma_tg_events (now tg δ : Int) (r : String) (db : DB) :
    (add_karma_tg now tg δ r db).events = db.events := rfl

lemma add_karma_tg_assignments (now tg δ : Int) (r : String) (db : DB) :
    (add_karma_tg now tg δ r db).assignments = db.assignments := rfl

lemma add_karma_tg_log (now tg δ : Int) (r : String) (db : DB) :
    (add_karma_tg now tg δ r db).karma_log = db.karma_log ++ [⟨tg, δ, r, now⟩] := rfl

/-- The karma fold of the mission transitions: store components other than
`users`/`karma_log` are untouched, and the log grows by one entry per listed
assignee. -/
lemma foldAdd_components (now penalty : Int) (reason : String) (l : List Int) (db : DB) :
    (l.foldl (fun d tg => add_karma_tg now tg penalty reason d) db).missions = db.missions
    ∧ (l.foldl (fun d tg => add_karma_tg now tg penalty reason d) db).events = db.events
    ∧ (l.foldl (fun d tg => add_karma_tg now tg penalty reason d) db).assignments
        = db.assignments
    ∧ (l.foldl (fun d tg => add_karma_tg now tg penalty reason d) db).karma_log
        = db.karma_log ++ l.map (fun tg => ⟨tg, penalty, reason, now⟩) := by
  induction l generalizing db with
  | nil => simp
  | cons a l ih =>
    obtain ⟨h1, h2, h3, h4⟩ := ih (add_karma_tg now a penalty reason db)
    refine ⟨by simpa using h1, by simpa using h2, by simpa using h3, ?_⟩
    simp [h4, add_karma_tg_log]

lemma get_assignees_foldAdd (now penalty : Int) (reason : String) (l : List Int)
    (mid : Int) (db : DB) :
    get_assignees_tg mid (l.foldl (fun d tg => add_karma_tg now tg penalty reason d) db)
      = get_assignees_tg mid db := by
  simp [get_assignees_tg, (foldAdd_components now penalty reason l db).2.2.1]

/-! ## C7 — rank derivation -/

/-- C7: `rank_for` is a total function of the karma integer: negative karma
gives the special disgraced rank; non-negative karma indexes the 11-entry
rank table at `karma / 100`, clamping to the last (top) entry, which is the
rank of every karma from 1000 up.  (Determinism and side-effect freedom hold
by construction: the embedding is a pure function, as is the source
function, which reads nothing but its argument.) -/
theorem c7_rank_for_spec :
    RANK_NAMES.length = 11
    ∧ (∀ k : Int, k < 0 → rank_for k = NEGATIVE_RANK)
    ∧ (∀ k : Int, 0 ≤ k →
        rank_for k = RANK_NAMES.getD (min (k.toNat / 100) (RANK_NAMES.length - 1)) NEGATIVE_RANK)
    ∧ (∀ k : Int, 1000 ≤ k → rank_for k = "🕶 Легенда Улиц") := by
  refine ⟨by decide, ?_, ?_, ?_⟩
  · intro k hk
    simp [rank_for, hk]
  · intro k hk
    have hk' : ¬ k < 0 := not_lt.mpr hk
    unfold rank_for
    simp only [hk', if_false]
    by_cases h : k.toNat / 100 ≥ RANK_NAMES.length
    · have hlen : RANK_NAMES.length = 11 := by decide
      have hmin : min (k.toNat / 100) (RANK_NAMES.length - 1) = 10 := by
        rw [hlen] at h ⊢
        omega
      rw [if_pos h, hmin]
      decide
    · have hlt : k.toNat / 100 < RANK_NAMES.length := not_le.mp h
      have hmin : min (k.toNat / 100) (RANK_NAMES.length - 1) = k.toNat / 100 := by
        have : RANK_NAMES.length = 11 := by decide
        rw [this] at hlt ⊢
        omega
      rw [if_neg h, hmin]
  · intro k hk
    have hk0 : ¬ k < 0 := by omega
    have htn : 1000 ≤ k.toNat := by omega
    have hdiv : 10 ≤ k.toNat / 100 := Nat.le_div_iff_mul_le (by norm_num) |>.mpr (by omega)
    unfold rank_for
    simp only [hk0, if_false]
    by_cases h : k.toNat / 100 ≥ RANK_NAMES.length
    · rw [if_pos h]; decide
    · have hlt : k.toNat / 100 < 11 := by
        have : RANK_NAMES.length = 11 := by decide
        omega
      have h10 : k.toNat / 100 = 10 := by omega
      rw [if_neg h, h10]
      decide

theorem c7_rank_for_spec_w :
    rank_for (-5) = NEGATIVE_RANK
    ∧ rank_for 250 = RANK_NAMES.getD (min ((250 : Int).toNat / 100) (RANK_NAMES.length - 1))
        NEGATIVE_RANK
    ∧ rank_for 123456 = "🕶 Легенда Улиц" :=
  ⟨c7_rank_for_spec.2.1 (-5) (by decide),
   c7_rank_for_spec.2.2.1 250 (by decide),
   c7_rank_for_spec.2.2.2 123456 (by decide)⟩

/-! ## C8 — postponement penalty tiers -/

/-- C8: the day-tier postponement penalty is 0 for one day, −1 for two and
−2 for three, hence non-increasing in the number of days; the inline tier
computation of the wired `cb_postpone_days` handler agrees with the policy
function on the clamped day count. -/
theorem c8_postpone_penalty_spec :
    postpone_penalty 1 = 0 ∧ postpone_penalty 2 = -1 ∧ postpone_penalty 3 = -2
    ∧ postpone_penalty 2 ≤ postpone_penalty 1 ∧ postpone_penalty 3 ≤ postpone_penalty 2
    ∧ (∀ d : Int, cbPostponeDaysPenalty d = postpone_penalty (max 1 (min 3 d))) := by
  refine ⟨by decide, by decide, by decide, by decide, by decide, ?_⟩
  intro d
  have h : max 1 (min 3 d) = 1 ∨ max 1 (min 3 d) = 2 ∨ max 1 (min 3 d) = 3 := by omega
  simp only [cbPostponeDaysPenalty]
  rcases h with h | h | h <;> rw [h] <;> decide

/-! ## C9 — estimator purity, bounds, reward formula, default category -/

/-- C9: for every text and due-today flag, `estimate` yields a difficulty in
1..5 and `total_reward = difficulty + (1 if due_today else 0)`; when no
category keyword matches the text the category defaults to `housekeeping`,
the category of least base difficulty.  (Purity/side-effect freedom holds by
construction: the source reads only its two arguments and module constants,
and the embedding is a pure function.) -/
theorem c9_estimate_spec :
    (∀ (text : String) (due : Bool),
      1 ≤ (estimate text due).difficulty ∧ (estimate text due).difficulty ≤ 5
      ∧ (estimate text due).total_reward
          = (estimate text due).difficulty + (if due then 1 else 0))
    ∧ (∀ (text : String) (due : Bool),
        (∀ p ∈ CATEGORY_KEYWORDS, ∀ w ∈ p.2, matchWord w (pyLowerStr text) = false) →
        (estimate text due).category = "housekeeping")
    ∧ (∀ p ∈ CATEGORY_BASE_DIFFICULTY, categoryBaseDifficulty "housekeeping" ≤ p.2) := by
  refine ⟨?_, ?_, by decide⟩
  · intro text due
    simp only [estimate]
    constructor
    · by_cases h : text.length > 80 <;> simp [h]
    · constructor
      · by_cases h : text.length > 80 <;> simp [h]
      · by_cases h : due <;> simp [h, URGENCY_BONUS_TODAY]
  · intro text due h
    have hnone :
        CATEGORY_KEYWORDS.find?
          (fun p => p.2.any (fun w => matchWord w (pyLowerStr text))) = none := by
      rw [List.find?_eq_none]
      intro p hp hcontra
      obtain ⟨w, hw, hmw⟩ := List.any_eq_true.mp hcontra
      rw [h p hp w hw] at hmw
      exact Bool.false_ne_true hmw
    simp [estimate, matchCategory, hnone]

theorem c9_estimate_spec_w :
    (estimate "qqq www" true).category = "housekeeping" :=
  c9_estimate_spec.2.1 "qqq www" true (by decide)

/-! ## Concrete store fixtures (witness/counterexample inputs) -/

/-- A mission under admin review: difficulty 3, one assignee (user 5),
deadline at t = 100, never extended. -/
def mW : Mission :=
  { id := 1, title := "t", description := "d", author_tg_id := 7
  , deadline_ts := some 100, difficulty := 3, difficulty_label := "L"
  , status := "REVIEW", reminder_stage := "", extension_count := 0
  , created_at := 0, closed_at := none }

def dbW : DB :=
  { users := [⟨5, 0, "🪙 Бродяга"⟩]
  , missions := [mW]
  , assignments := [⟨1, 5, 0⟩]
  , events := []
  , karma_log := [] }

/-! ## C5 — the scheduler-driven OVERDUE transition -/

/-- C5: on an existing mission, `mark_overdue_and_penalize` sets the status
to `OVERDUE` (and the reminder stage to `overdue`), appends one `overdue`
event, and appends one ledger entry of −3 per assignee when
`extension_count` is 0 (−4 when it is ≥ 1); the returned value is that
penalty. -/
theorem c5_mark_overdue_spec (now mission_id : Int) (db : DB) (m : Mission)
    (h : db.missions.find? (fun x => x.id == mission_id) = some m) :
    (mark_overdue_and_penalize now mission_id db).1
      = (if m.extension_count ≥ 1 then (-4 : Int) else -3)
    ∧ (mark_overdue_and_penalize now mission_id db).2.missions
        = db.missions.map (fun x => if x.id = mission_id
            then { x with status := "OVERDUE", reminder_stage := "overdue" } else x)
    ∧ (mark_overdue_and_penalize now mission_id db).2.events
        = db.events ++ [⟨"overdue",
            [("mission_id", .jint mission_id),
             ("penalty", .jint (if m.extension_count ≥ 1 then -4 else -3))], now⟩]
    ∧ (mark_overdue_and_penalize now mission_id db).2.karma_log
        = db.karma_log ++ (get_assignees_tg mission_id db).map
            (fun tg => ⟨tg, (if m.extension_count ≥ 1 then -4 else -3),
                        "Просрочка миссии", now⟩) := by
  obtain ⟨h1, h2, _, h4⟩ := foldAdd_components now
    (if m.extension_count ≥ 1 then (-4 : Int) else -3) "Просрочка миссии"
    (get_assignees_tg mission_id db) db
  unfold mark_overdue_and_penalize
  rw [h]
  exact ⟨rfl, by simp [add_event, h1], by simp [add_event, h2], by simp [add_event, h4]⟩

theorem c5_mark_overdue_spec_w :
    (mark_overdue_and_penalize 500 1 dbW).1 = -3
    ∧ (mark_overdue_and_penalize 500 1 dbW).2.events
        = [⟨"overdue", [("mission_id", .jint 1), ("penalty", .jint (-3))], 500⟩]
    ∧ (mark_overdue_and_penalize 500 1 dbW).2.karma_log
        = [⟨5, -3, "Просрочка миссии", 500⟩]
    ∧ ((mark_overdue_and_penalize 500 1 dbW).2.missions.map
        (fun m => (m.status, m.reminder_stage))) = [("OVERDUE", "overdue")] := by
  obtain ⟨h1, h2, h3, h4⟩ := c5_mark_overdue_spec 500 1 dbW mW (by decide)
  refine ⟨h1.trans (by decide), h3.trans (by decide), h4.trans (by decide), ?_⟩
  rw [h2]
  decide

/-! ## C2 — the balance/log invariant of the karma ledger -/

/-- Shape of membership in `recomputeRankByTg`: the rank pass never changes
anyone's `karma` or `tg_id`. -/
lemma recomputeRank_mem (tg : Int) (us : List UserRow) (u : UserRow)
    (hu : u ∈ recomputeRankByTg tg us) :
    ∃ v ∈ us, u.karma = v.karma ∧ u.tg_id = v.tg_id := by
  unfold recomputeRankByTg at hu
  cases hfind : us.find? (fun x => x.tg_id == tg) with
  | none => rw [hfind] at hu; exact ⟨u, hu, rfl, rfl⟩
  | some w =>
    rw [hfind] at hu
    obtain ⟨v, hv, rfl⟩ := List.mem_map.mp hu
    refine ⟨v, hv, ?_, ?_⟩ <;> by_cases h : v.tg_id = tg <;> simp [h]

/-- Shape of membership in `applyDeltaUsers`: each row keeps its `tg_id` and
gains the delta exactly when it is the targeted row. -/
lemma applyDelta_mem (tg δ : Int) (us : List UserRow) (v : UserRow)
    (hv : v ∈ applyDeltaUsers tg δ us) :
    ∃ w ∈ us, v.tg_id = w.tg_id
      ∧ v.karma = (if w.tg_id = tg then w.karma + δ else w.karma) := by
  obtain ⟨w, hw, rfl⟩ := List.mem_map.mp hv
  exact ⟨w, hw, by by_cases h : w.tg_id = tg <;> simp [h],
         by by_cases h : w.tg_id = tg <;> simp [h]⟩

/-- C2 (amended): the balance = log-sum invariant is preserved by
`add_karma_tg` (for any target, existing or not) and (re-)established by
`reset_all_karma`.  It is *not* preserved by the approve handler's direct-SQL
fallback — see the counterexample — and an `add_karma_tg` call whose `tg_id`
has no `users` row records the delta in the log only, so a `users` row
created later (at karma 0) starts out disagreeing with the log. -/
theorem c2_ledger_inv_preserved (now tg δ : Int) (r : String) (db : DB)
    (h : LedgerInv db) :
    LedgerInv (add_karma_tg now tg δ r db) ∧ LedgerInv (reset_all_karma db) := by
  constructor
  · intro u hu
    have hu' : u ∈ recomputeRankByTg tg (applyDeltaUsers tg δ db.users) := hu
    obtain ⟨v, hv, hk, ht⟩ := recomputeRank_mem tg _ u hu'
    obtain ⟨w, hw, ht2, hk2⟩ := applyDelta_mem tg δ db.users v hv
    have hlog : (add_karma_tg now tg δ r db).karma_log
        = db.karma_log ++ [⟨tg, δ, r, now⟩] := rfl
    rw [hlog, sumDeltas_append, sumDeltas_single, hk, hk2, ht, ht2, ← h w hw]
    by_cases hcase : w.tg_id = tg
    · rw [if_pos hcase, if_pos hcase.symm]
    · rw [if_neg hcase, if_neg (fun hc => hcase hc.symm), add_zero]
  · intro u hu
    obtain ⟨v, _, rfl⟩ := List.mem_map.mp hu
    simp [sumDeltas, reset_all_karma]

theorem c2_ledger_inv_preserved_w :
    LedgerInv (add_karma_tg 7 5 4 "бонус" dbW) ∧ LedgerInv (reset_all_karma dbW) :=
  c2_ledger_inv_preserved 7 5 4 "бонус" dbW (by decide)

/-- C2 (counterexample): starting from a store satisfying the invariant, the
wired approve handler's direct-SQL fallback path adds the mission difficulty
to `users.karma` without appending any `karma_log` entry, after which the
materialized balance (3) differs from the log sum (0). -/
theorem c2_fallback_breaks_ledger_cex :
    LedgerInv dbW ∧ ¬ LedgerInv (cbReviewApproveFallbackCore 999 1 dbW) := by
  exact ⟨by decide, by decide⟩

/-! ## Admin review: the wired handlers vs the service functions -/

/-- `find?` by id commutes with an id-preserving rewrite of the missions
list. -/
lemma find?_id_map (l : List Mission) (mid : Int) (f : Mission → Mission)
    (hf : ∀ x, (f x).id = x.id) :
    (l.map f).find? (fun x => x.id == mid) = (l.find? (fun x => x.id == mid)).map f := by
  induction l with
  | nil => rfl
  | cons a l ih =>
    simp only [List.map_cons, List.find?_cons, hf a]
    cases h : (a.id == mid) <;> simp [h, ih]

/-- What the dead handler `take_reject_reason` *would* do if a message ever
reached it (it cannot — see `c4_reject_no_transition`): move the mission to
`REWORK`, extend its deadline by exactly one day with zero karma penalty
(bumping `extension_count`, clearing `reminder_stage`), leave the ledger and
every balance untouched, and log a `postpone_days` event with penalty 0 —
even this unreachable path applies no rework karma penalty and logs no
`review_rejected` event. -/
lemma takeRejectReason_dead_spec (now mid : Int) (db : DB) (m : Mission)
    (h : db.missions.find? (fun x => x.id == mid) = some m) :
    (takeRejectReasonCore now mid db).missions
      = db.missions.map (fun x => if x.id = mid
          then { x with
                  status := "REWORK",
                  deadline_ts := some (m.deadline_ts.getD now + 86400),
                  extension_count := x.extension_count + 1,
                  reminder_stage := "" } else x)
    ∧ (takeRejectReasonCore now mid db).users = db.users
    ∧ (takeRejectReasonCore now mid db).karma_log = db.karma_log
    ∧ (takeRejectReasonCore now mid db).events
      = db.events ++ [⟨"postpone_days",
          [ ("mission_id", .jint mid)
          , ("by_tg_id", .jint (missionRowAssignee mid db))
          , ("days", .jint 1)
          , ("new_deadline", .jint (m.deadline_ts.getD now + 86400))
          , ("penalty", .jint 0)], now⟩] := by
  have hmid : m.id = mid := by
    have := List.find?_some h
    simpa using this
  have hstat : ∀ x : Mission,
      ((if x.id = mid then { x with status := "REWORK" } else x) : Mission).id = x.id := by
    intro x; by_cases hx : x.id = mid <;> simp [hx]
  have hfind2 : (set_status mid "REWORK" db).missions.find? (fun x => x.id == mid)
      = some { m with status := "REWORK" } := by
    unfold set_status
    rw [find?_id_map _ _ _ hstat, h]
    simp [hmid]
  have hday : (max 1 (min 3 (1 : Int))) = 1 := by norm_num
  unfold takeRejectReasonCore
  simp only [postpone_days, hday, hfind2]
  norm_num
  refine ⟨?_, by simp [add_event, set_status], by simp [add_event, set_status],
          by simp [add_event, set_status]⟩
  simp only [add_event, set_status]
  rw [List.map_map]
  refine List.map_congr_left ?_
  intro x _
  by_cases hx : x.id = mid
  · simp [Function.comp, hx]
  · simp [Function.comp, hx]

/-- C4 (amended): the wired admin-reject flow performs no mission-store
transition at all.  `cb_review_reject` (which receives the `review:reject:*`
callback, shadowing the legacy `missions.py` reject handler) only records an
await-reason flag in the settings blob and prompts for a reason, and the
reason message can never reach `take_reject_reason`: first-match dispatch
over the text-handler chain always stops at `ai_or_text_capture` (or an
earlier menu handler), and that handler's only mission-store write is the
identity upsert of the sender's `users` row — `missions`, `karma_log` and
`events` are never touched.  So the mission stays in `REVIEW` with its
deadline: no rework karma penalty, no grace extension, no `review_rejected`
(or any) event. -/
theorem c4_reject_no_transition :
    (∀ t : String, dispatchText t ≠ some UiTextHandler.takeRejectReason)
    ∧ (∀ (now actor : Int) (text : String) (awaitAi : Bool) (db : DB),
        (aiOrTextCaptureCore now actor text awaitAi (cbReviewRejectCore db)).missions
            = db.missions
        ∧ (aiOrTextCaptureCore now actor text awaitAi (cbReviewRejectCore db)).karma_log
            = db.karma_log
        ∧ (aiOrTextCaptureCore now actor text awaitAi (cbReviewRejectCore db)).events
            = db.events
        ∧ ((aiOrTextCaptureCore now actor text awaitAi (cbReviewRejectCore db)).users
              = db.users
            ∨ (aiOrTextCaptureCore now actor text awaitAi (cbReviewRejectCore db)).users
              = db.users ++ [⟨actor, 0, "🪙 Бродяга"⟩])) := by
  constructor
  · intro t hcontra
    simp only [dispatchText, textHandlerChain] at hcontra
    by_cases h1 : (t == "/start") = true <;>
      by_cases h2 : (t == "🎯 Мои миссии") = true <;>
      by_cases h3 : (t == "🗂 Все миссии") = true <;>
      by_cases h4 : (t == "🏁 Таблица кармы") = true <;>
      by_cases h5 : (t == "👑 Админ-панель") = true <;>
      by_cases h6 : (t == "➕ Дать миссию") = true <;>
      simp [List.find?, h1, h2, h3, h4, h5, h6] at hcontra
  · intro now actor text awaitAi db
    unfold cbReviewRejectCore aiOrTextCaptureCore ensure_user
    by_cases hm : strTrim text ∈ MENU_BUTTONS
    · simp [hm]
    · cases ha : awaitAi with
      | false => simp [hm, ha]
      | true =>
        cases hf : db.users.find? (fun u => u.tg_id == actor) with
        | some u => simp [hm, ha, hf]
        | none => simp [hm, ha, hf]

/-- C4 (counterexample): the complete wired reject interaction on a concrete
mission under review — the admin taps the reject button, then sends the
reason text, which first-match dispatch hands to `ai_or_text_capture` —
returns the store exactly as it was: the mission is still `REVIEW` with its
original deadline, the karma log and events journal are empty, while the
policy's rework penalty is `−1`, not 0, and was never charged; no
`review_rejected` event exists. -/
theorem c4_reject_dead_cex :
    dispatchText "Отчёт слабый, переделай" = some UiTextHandler.aiOrTextCapture
    ∧ aiOrTextCaptureCore 999 7 "Отчёт слабый, переделай" false (cbReviewRejectCore dbW)
        = dbW
    ∧ (dbW.missions.map fun m => (m.status, m.deadline_ts)) = [("REVIEW", some 100)]
    ∧ dbW.karma_log = [] ∧ dbW.events = []
    ∧ REWORK_PENALTY = -1 := by decide

/-- C3: on a concrete mission in REVIEW (difficulty 3, one assignee), the
service-layer `approve_report` does everything the claim states — status
`DONE`, `closed_at = now`, one +3 ledger entry for the assignee, one
`review_approved` event — but the handler actually wired to the approve
button (`cb_review_approve`) only sets `DONE` and adds the karma: it leaves
`closed_at` NULL and logs no `review_approved` (or any other) event. -/
theorem c3_approve_paths :
    ((cbReviewApproveCore 999 1 dbW).missions.map (fun m => (m.status, m.closed_at)))
      = [("DONE", none)]
    ∧ (cbReviewApproveCore 999 1 dbW).events = []
    ∧ (cbReviewApproveCore 999 1 dbW).karma_log = [⟨5, 3, "Миссия #1 выполнена", 999⟩]
    ∧ ((approve_report 999 1 77 dbW).2.missions.map (fun m => (m.status, m.closed_at)))
      = [("DONE", some 999)]
    ∧ ((approve_report 999 1 77 dbW).2.events.map (·.kind)) = ["review_approved"]
    ∧ (approve_report 999 1 77 dbW).2.karma_log = [⟨5, 3, "Отчёт принят", 999⟩] := by
  decide

/-! ## C1 — a sweep that lands past several thresholds at once -/

/-- An open mission whose remaining time at `now = 0` is 4 hours: already past
the 24h and the 5h thresholds (so the most advanced applicable stage is
`5h`), reminder stage still unset. -/
def mC1 : Mission :=
  { id := 1, title := "t", description := "d", author_tg_id := 7
  , deadline_ts := some 14400, difficulty := 2, difficulty_label := "L"
  , status := "OPEN", reminder_stage := "", extension_count := 0
  , created_at := 0, closed_at := none }

def dbC1 : DB :=
  { users := []
  , missions := [mC1]
  , assignments := [⟨1, 42, 0⟩]
  , events := []
  , karma_log := [] }

/-- C1: a single sweep over a mission with 4 hours remaining and stage
`none` sends exactly one reminder — but it is the *24h-stage* reminder (the
stage loop takes the first threshold with `left <= sec`, in 24h → 5h → 1h
order), and `reminder_stage` becomes `24h`, not the most advanced applicable
stage `5h`: the sweep does backfill the skipped earlier stage.  The last
conjuncts record that 4 hours is within the 5h threshold but not the 1h one,
i.e. that `5h` is the most advanced applicable stage. -/
theorem c1_sweep_sends_earliest_stage :
    (sweepOnce 0 dbC1).2 = [⟨1, "24h", [42], false⟩]
    ∧ ((sweepOnce 0 dbC1).1.missions.map (·.reminder_stage)) = ["24h"]
    ∧ ("24h" : String) ≠ "5h"
    ∧ (14400 : Int) ≤ 5 * 3600 ∧ ¬ ((14400 : Int) ≤ 1 * 3600) := by
  decide

/-! ## C6 — idempotent overdue marking

A mission row is `Bad` when a sweep encountering it would run the overdue
branch: eligible for the fetch (non-NULL deadline, active status) with its
deadline passed and its reminder stage not yet `overdue`. -/

def Bad (now : Int) (m : Mission) : Prop :=
  m.deadline_ts.isSome = true ∧ activeStatusB m.status = true
  ∧ m.deadline_ts.getD 0 - now ≤ 0 ∧ strTrim m.reminder_stage ≠ "overdue"

lemma strTrim_overdue : strTrim "overdue" = "overdue" := by decide

lemma pickStage_99 (left : Int) : pickStage left 99 = none := by
  norm_num [pickStage, pickStageAux, STAGES]

/-- What one `sweepItem` does to the missions table: an id-preserving,
deadline-preserving per-row rewrite that touches only the processed row's id;
on a stale row it forces the reminder stage to `overdue`, on a non-stale row
it either changes nothing or (only when time remains) just advances the
reminder stage. -/
lemma sweepItem_shape (now : Int) (st : DB × List SentMsg) (m : Mission) :
    ∃ f : Mission → Mission,
      (sweepItem now st m).1.missions = st.1.missions.map f
      ∧ (sweepItem now st m).1.assignments = st.1.assignments
      ∧ (∀ x, (f x).id = x.id)
      ∧ (∀ x, (f x).deadline_ts = x.deadline_ts)
      ∧ (∀ x, x.id ≠ m.id → f x = x)
      ∧ ((m.deadline_ts.getD 0 - now ≤ 0 ∧ strTrim m.reminder_stage ≠ "overdue") →
          ∀ x, x.id = m.id → (f x).reminder_stage = "overdue")
      ∧ (¬ (m.deadline_ts.getD 0 - now ≤ 0 ∧ strTrim m.reminder_stage ≠ "overdue") →
          ∀ x, x.id = m.id →
            f x = x ∨ (0 < m.deadline_ts.getD 0 - now ∧ (f x).status = x.status)) := by
  by_cases hc : m.deadline_ts.getD 0 - now ≤ 0 ∧ strTrim m.reminder_stage ≠ "overdue"
  · cases hfind : st.1.missions.find? (fun x => x.id == m.id) with
    | none =>
      refine ⟨fun y => if y.id = m.id then { y with reminder_stage := "overdue" } else y,
              ?_, ?_, ?_, ?_, ?_, ?_, ?_⟩
      · simp only [sweepItem]
        rw [if_pos hc]
        simp [mark_overdue_and_penalize, hfind, set_reminder_stage]
      · simp only [sweepItem]
        rw [if_pos hc]
        simp [mark_overdue_and_penalize, hfind, set_reminder_stage]
      · intro x; by_cases hx : x.id = m.id <;> simp [hx]
      · intro x; by_cases hx : x.id = m.id <;> simp [hx]
      · intro x hx; simp [hx]
      · intro _ x hx; simp [hx]
      · intro hn; exact absurd hc hn
    | some m0 =>
      refine ⟨fun y => if y.id = m.id
                then { y with status := "OVERDUE", reminder_stage := "overdue" } else y,
              ?_, ?_, ?_, ?_, ?_, ?_, ?_⟩
      · have h1 := (foldAdd_components now (if m0.extension_count ≥ 1 then (-4 : Int) else -3)
          "Просрочка миссии" (get_assignees_tg m.id st.1) st.1).1
        simp only [sweepItem]
        rw [if_pos hc]
        simp only [mark_overdue_and_penalize, hfind, set_reminder_stage, add_event]
        rw [h1, List.map_map]
        refine List.map_congr_left ?_
        intro x _
        by_cases hx : x.id = m.id
        · simp [Function.comp, hx]
        · simp [Function.comp, hx]
      · have h3 := (foldAdd_components now (if m0.extension_count ≥ 1 then (-4 : Int) else -3)
          "Просрочка миссии" (get_assignees_tg m.id st.1) st.1).2.2.1
        simp only [sweepItem]
        rw [if_pos hc]
        simp only [mark_overdue_and_penalize, hfind, set_reminder_stage, add_event]
        exact h3
      · intro x; by_cases hx : x.id = m.id <;> simp [hx]
      · intro x; by_cases hx : x.id = m.id <;> simp [hx]
      · intro x hx; simp [hx]
      · intro _ x hx; simp [hx]
      · intro hn; exact absurd hc hn
  · cases hp : pickStage (m.deadline_ts.getD 0 - now) (stageOrder (strTrim m.reminder_stage)) with
    | none =>
      refine ⟨id, ?_, ?_, fun x => rfl, fun x => rfl, fun x _ => rfl, ?_, ?_⟩
      · simp only [sweepItem]
        rw [if_neg hc, hp]
        simp
      · simp only [sweepItem]
        rw [if_neg hc, hp]
      · intro hcc; exact absurd hcc hc
      · intro _ x _; exact Or.inl rfl
    | some code =>
      refine ⟨fun y => if y.id = m.id then { y with reminder_stage := code } else y,
              ?_, ?_, ?_, ?_, ?_, ?_, ?_⟩
      · simp only [sweepItem]
        rw [if_neg hc, hp]
        simp [set_reminder_stage]
      · simp only [sweepItem]
        rw [if_neg hc, hp]
        rfl
      · intro x; by_cases hx : x.id = m.id <;> simp [hx]
      · intro x; by_cases hx : x.id = m.id <;> simp [hx]
      · intro x hx; simp [hx]
      · intro hcc; exact absurd hcc hc
      · intro _ x hx
        refine Or.inr ⟨?_, by simp [hx]⟩
        rcases not_and_or.mp hc with hno | hov
        · omega
        · have hov' : strTrim m.reminder_stage = "overdue" := not_not.mp hov
          rw [hov'] at hp
          have : stageOrder "overdue" = 99 := by decide
          rw [this] at hp
          exact absurd hp (by simp [pickStage_99])

/-- A sweep never creates a `Bad` mission: after processing every snapshot
row that could trigger the overdue branch, no mission in the store is still
active with a passed deadline and an un-`overdue` reminder stage. -/
lemma sweep_fold_no_bad (now : Int) :
    ∀ (rows : List Mission) (st : DB × List SentMsg),
      (st.1.missions.map (fun x => x.id)).Nodup →
      (rows.map (fun x => x.id)).Nodup →
      (∀ r ∈ rows, r ∈ st.1.missions) →
      (∀ x ∈ st.1.missions, Bad now x → x ∈ rows) →
      ∀ x ∈ (rows.foldl (sweepItem now) st).1.missions, ¬ Bad now x := by
  intro rows
  induction rows with
  | nil =>
    intro st _ _ _ hbad x hx hBad
    simp only [List.foldl_nil] at hx
    exact absurd (hbad x hx hBad) (List.not_mem_nil x)
  | cons r rest ih =>
    intro st hndM hndR hsub hbad
    rw [List.foldl_cons]
    obtain ⟨f, hmis, _, hid, hdl, hoff, hstale, hnon⟩ := sweepItem_shape now st r
    have hids : ((sweepItem now st r).1.missions.map (fun x => x.id))
        = st.1.missions.map (fun x => x.id) := by
      rw [hmis, List.map_map]
      exact List.map_congr_left (fun a _ => hid a)
    simp only [List.map_cons] at hndR
    have hrid : r.id ∉ rest.map (fun x => x.id) := (List.nodup_cons.mp hndR).1
    apply ih (sweepItem now st r)
    · rw [hids]; exact hndM
    · exact (List.nodup_cons.mp hndR).2
    · intro r' hr'
      have hmem : r' ∈ st.1.missions := hsub r' (List.mem_cons_of_mem r hr')
      have hne : r'.id ≠ r.id := by
        intro hcontra
        exact hrid (hcontra ▸ List.mem_map_of_mem (fun x => x.id) hr')
      rw [hmis]
      have hmap := List.mem_map_of_mem f hmem
      rwa [hoff r' hne] at hmap
    · intro x hx hBadx
      rw [hmis] at hx
      obtain ⟨y, hy, rfl⟩ := List.mem_map.mp hx
      by_cases hyid : y.id = r.id
      · have hyr : y = r :=
          List.inj_on_of_nodup_map hndM hy (hsub r (List.mem_cons_self r rest)) hyid
        by_cases hstl : r.deadline_ts.getD 0 - now ≤ 0 ∧ strTrim r.reminder_stage ≠ "overdue"
        · have hov := hstale hstl y hyid
          exact absurd (by rw [hov]; exact strTrim_overdue) hBadx.2.2.2
        · rcases hnon hstl y hyid with hfy | ⟨hpos, _⟩
          · rw [hfy, hyr] at hBadx
            exact absurd ⟨hBadx.2.2.1, hBadx.2.2.2⟩ hstl
          · have hle : (f y).deadline_ts.getD 0 - now ≤ 0 := hBadx.2.2.1
            rw [hdl y, hyr] at hle
            exact absurd hle (by omega)
      · rw [hoff y hyid] at hBadx ⊢
        rcases List.mem_cons.mp (hbad y hy hBadx) with h | h
        · exact absurd (by rw [h]) hyid
        · exact h

/-- A sweep item on a non-stale row touches neither the karma log nor the
events journal. -/
lemma sweepItem_nonstale_log_events (now : Int) (st : DB × List SentMsg) (m : Mission)
    (hns : ¬ (m.deadline_ts.getD 0 - now ≤ 0 ∧ strTrim m.reminder_stage ≠ "overdue")) :
    (sweepItem now st m).1.karma_log = st.1.karma_log
    ∧ (sweepItem now st m).1.events = st.1.events := by
  simp only [sweepItem]
  rw [if_neg hns]
  cases hp : pickStage (m.deadline_ts.getD 0 - now) (stageOrder (strTrim m.reminder_stage)) with
  | none => exact ⟨rfl, rfl⟩
  | some code => exact ⟨rfl, rfl⟩

/-- A whole sweep over rows none of which is stale leaves the karma log and
the events journal unchanged. -/
lemma sweep_fold_no_stale (now : Int) :
    ∀ (rows : List Mission) (st : DB × List SentMsg),
      (∀ r ∈ rows, ¬ (r.deadline_ts.getD 0 - now ≤ 0 ∧ strTrim r.reminder_stage ≠ "overdue")) →
      (rows.foldl (sweepItem now) st).1.karma_log = st.1.karma_log
      ∧ (rows.foldl (sweepItem now) st).1.events = st.1.events := by
  intro rows
  induction rows with
  | nil => intro st _; exact ⟨rfl, rfl⟩
  | cons r rest ih =>
    intro st h
    rw [List.foldl_cons]
    obtain ⟨h1, h2⟩ := sweepItem_nonstale_log_events now st r (h r (List.mem_cons_self r rest))
    obtain ⟨h3, h4⟩ := ih (sweepItem now st r) (fun r' hr' => h r' (List.mem_cons_of_mem r hr'))
    exact ⟨h3.trans h1, h4.trans h2⟩

/-- Processing rows of other ids preserves "every mission with this id is
already marked OVERDUE/overdue". -/
lemma sweep_fold_keeps_mark (now mid : Int) :
    ∀ (rows : List Mission) (st : DB × List SentMsg),
      (∀ r ∈ rows, r.id ≠ mid) →
      (∀ x ∈ st.1.missions, x.id = mid →
        x.status = "OVERDUE" ∧ x.reminder_stage = "overdue") →
      ∀ x ∈ (rows.foldl (sweepItem now) st).1.missions, x.id = mid →
        x.status = "OVERDUE" ∧ x.reminder_stage = "overdue" := by
  intro rows
  induction rows with
  | nil => intro st _ hmark; simpa using hmark
  | cons r rest ih =>
    intro st hr hmark
    rw [List.foldl_cons]
    apply ih (sweepItem now st r) (fun r' h => hr r' (List.mem_cons_of_mem r h))
    intro x hx hxid
    obtain ⟨f, hmis, _, hid, _, hoff, _, _⟩ := sweepItem_shape now st r
    rw [hmis] at hx
    obtain ⟨y, hy, rfl⟩ := List.mem_map.mp hx
    have hyid : y.id = mid := by rw [← hid y]; exact hxid
    have hyne : y.id ≠ r.id := by
      intro hcontra
      exact hr r (List.mem_cons_self r rest) (by rw [← hcontra]; exact hyid)
    rw [hoff y hyne]
    exact hmark y hy hyid

/-- A sweep permutes no rows and changes no ids. -/
lemma sweep_fold_ids (now : Int) :
    ∀ (rows : List Mission) (st : DB × List SentMsg),
      ((rows.foldl (sweepItem now) st).1.missions.map (fun x => x.id))
        = st.1.missions.map (fun x => x.id) := by
  intro rows
  induction rows with
  | nil => intro st; rfl
  | cons r rest ih =>
    intro st
    rw [List.foldl_cons]
    obtain ⟨f, hmis, _, hid, _, _, _, _⟩ := sweepItem_shape now st r
    rw [ih (sweepItem now st r), hmis, List.map_map]
    exact List.map_congr_left (fun a _ => hid a)

/-- A sweep item on a stale row marks every mission of that id as
OVERDUE/overdue (the overdue branch's store update applies as soon as some
mission with the id exists). -/
lemma sweepItem_stale_marks (now : Int) (st : DB × List SentMsg) (m : Mission)
    (h1 : m.deadline_ts.getD 0 - now ≤ 0) (h2 : strTrim m.reminder_stage ≠ "overdue")
    (hex : ∃ y ∈ st.1.missions, y.id = m.id) :
    ∀ x ∈ (sweepItem now st m).1.missions, x.id = m.id →
      x.status = "OVERDUE" ∧ x.reminder_stage = "overdue" := by
  have hsome : (st.1.missions.find? (fun x => x.id == m.id)).isSome := by
    rw [List.find?_isSome]
    obtain ⟨y, hy, hid⟩ := hex
    exact ⟨y, hy, by simp [hid]⟩
  obtain ⟨m0, hm0⟩ := Option.isSome_iff_exists.mp hsome
  intro x hx hxid
  simp only [sweepItem] at hx
  rw [if_pos ⟨h1, h2⟩] at hx
  simp only [mark_overdue_and_penalize, hm0, set_reminder_stage, add_event] at hx
  rw [List.map_map] at hx
  obtain ⟨z, _, rfl⟩ := List.mem_map.mp hx
  by_cases hzid : z.id = m.id
  · simp [Function.comp, hzid]
  · exfalso
    simp [Function.comp, hzid] at hxid

/-- C6: on any store with distinct mission ids, take a stale mission (active
status, non-NULL deadline already passed, reminder stage not yet `overdue`).
The first sweep leaves it marked `OVERDUE` with reminder stage `overdue`, and
a second sweep run immediately after (same `now`) appends nothing to the
karma log and nothing to the events journal — the overdue penalty and the
`overdue` event happen exactly once. -/
theorem c6_overdue_idempotent (now : Int) (db : DB) (m : Mission)
    (hnodup : (db.missions.map (fun x => x.id)).Nodup)
    (hm : m ∈ db.missions)
    (hact : activeStatusB m.status = true)
    (hdl : m.deadline_ts.isSome = true)
    (hstale : m.deadline_ts.getD 0 - now ≤ 0)
    (hstage : strTrim m.reminder_stage ≠ "overdue") :
    (∃ m', (sweepOnce now db).1.missions.find? (fun x => x.id == m.id) = some m'
        ∧ m'.status = "OVERDUE" ∧ m'.reminder_stage = "overdue")
    ∧ (sweepOnce now ((sweepOnce now db).1)).1.karma_log = (sweepOnce now db).1.karma_log
    ∧ (sweepOnce now ((sweepOnce now db).1)).1.events = (sweepOnce now db).1.events := by
  have hrowsub : ∀ r ∈ fetchActiveMissions db, r ∈ db.missions :=
    fun r hr => (List.mem_filter.mp hr).1
  have hrownodup : ((fetchActiveMissions db).map (fun x => x.id)).Nodup :=
    hnodup.sublist ((List.filter_sublist db.missions).map (fun x => x.id))
  have hbadrows : ∀ x ∈ db.missions, Bad now x → x ∈ fetchActiveMissions db := by
    intro x hx hb
    exact List.mem_filter.mpr ⟨hx, by simp [fetchActiveMissions, hb.1, hb.2.1]⟩
  have hm_rows : m ∈ fetchActiveMissions db :=
    List.mem_filter.mpr ⟨hm, by simp [fetchActiveMissions, hdl, hact]⟩
  have hnobad : ∀ x ∈ (sweepOnce now db).1.missions, ¬ Bad now x :=
    sweep_fold_no_bad now (fetchActiveMissions db) (db, []) hnodup hrownodup hrowsub hbadrows
  obtain ⟨l1, l2, hsplit⟩ := List.append_of_mem hm_rows
  have hids1 : ((sweepOnce now db).1.missions.map (fun x => x.id))
      = db.missions.map (fun x => x.id) :=
    sweep_fold_ids now (fetchActiveMissions db) (db, [])
  have hsweep1 : sweepOnce now db
      = l2.foldl (sweepItem now) (sweepItem now (l1.foldl (sweepItem now) (db, [])) m) := by
    show (fetchActiveMissions db).foldl (sweepItem now) (db, []) = _
    rw [hsplit, List.foldl_append, List.foldl_cons]
  have hidsA : ((l1.foldl (sweepItem now) (db, [])).1.missions.map (fun x => x.id))
      = db.missions.map (fun x => x.id) := sweep_fold_ids now l1 (db, [])
  have hexA : ∃ y ∈ (l1.foldl (sweepItem now) (db, [])).1.missions, y.id = m.id := by
    have hmem : m.id ∈ (l1.foldl (sweepItem now) (db, [])).1.missions.map (fun x => x.id) := by
      rw [hidsA]; exact List.mem_map_of_mem (fun x => x.id) hm
    obtain ⟨y, hy, hyid⟩ := List.mem_map.mp hmem
    exact ⟨y, hy, hyid⟩
  have hmarkB := sweepItem_stale_marks now (l1.foldl (sweepItem now) (db, [])) m
    hstale hstage hexA
  have hl2 : ∀ r ∈ l2, r.id ≠ m.id := by
    have hnd := hrownodup
    rw [hsplit] at hnd
    simp only [List.map_append, List.map_cons] at hnd
    have h2 := hnd.of_append_right
    have hmnotin := (List.nodup_cons.mp h2).1
    intro r hr hc
    exact hmnotin (hc ▸ List.mem_map_of_mem (fun x => x.id) hr)
  have hmark1 : ∀ x ∈ (sweepOnce now db).1.missions, x.id = m.id →
      x.status = "OVERDUE" ∧ x.reminder_stage = "overdue" := by
    rw [hsweep1]
    exact sweep_fold_keeps_mark now m.id l2 _ hl2 hmarkB
  have hfind1 : ∃ m', (sweepOnce now db).1.missions.find? (fun x => x.id == m.id) = some m'
      ∧ m'.status = "OVERDUE" ∧ m'.reminder_stage = "overdue" := by
    have hmem : m.id ∈ (sweepOnce now db).1.missions.map (fun x => x.id) := by
      rw [hids1]; exact List.mem_map_of_mem (fun x => x.id) hm
    obtain ⟨y, hy, hyid⟩ := List.mem_map.mp hmem
    have hsome : ((sweepOnce now db).1.missions.find? (fun x => x.id == m.id)).isSome := by
      rw [List.find?_isSome]; exact ⟨y, hy, by simp [hyid]⟩
    obtain ⟨m', hm'⟩ := Option.isSome_iff_exists.mp hsome
    have hm'mem := List.mem_of_find?_eq_some hm'
    have hm'id : m'.id = m.id := by simpa using List.find?_some hm'
    exact ⟨m', hm', hmark1 m' hm'mem hm'id⟩
  have hnost2 : ∀ r ∈ fetchActiveMissions (sweepOnce now db).1,
      ¬ (r.deadline_ts.getD 0 - now ≤ 0 ∧ strTrim r.reminder_stage ≠ "overdue") := by
    intro r hr hcond
    have hmem := (List.mem_filter.mp hr).1
    have hprops := (List.mem_filter.mp hr).2
    simp only [Bool.and_eq_true] at hprops
    exact hnobad r hmem ⟨hprops.1, hprops.2, hcond.1, hcond.2⟩
  obtain ⟨hk, he⟩ := sweep_fold_no_stale now (fetchActiveMissions (sweepOnce now db).1)
    ((sweepOnce now db).1, []) hnost2
  exact ⟨hfind1, hk, he⟩

theorem c6_overdue_idempotent_w :
    (∃ m', (sweepOnce 500 dbW).1.missions.find? (fun x => x.id == mW.id) = some m'
        ∧ m'.status = "OVERDUE" ∧ m'.reminder_stage = "overdue")
    ∧ (sweepOnce 500 ((sweepOnce 500 dbW).1)).1.karma_log = (sweepOnce 500 dbW).1.karma_log
    ∧ (sweepOnce 500 ((sweepOnce 500 dbW).1)).1.events = (sweepOnce 500 dbW).1.events :=
  c6_overdue_idempotent 500 dbW mW (by decide) (by decide) (by decide) (by decide)
    (by decide) (by decide)

/-! ## C10 — the explicit snippet count -/

/-- C10 (counterexample): "полностью сделать трек и 3 тизера" carries the
explicit snippet count 3, yet the derived difficulty is 5, not
`clamp(3) = 3`: `_difficulty_from_text` checks the full-track category before
the snippet count, so the count does not override it. -/
theorem c10_full_track_overrides_cex :
    difficultyFromText "полностью сделать трек и 3 тизера" = 5
    ∧ countSnippets "полностью сделать трек и 3 тизера" = 3
    ∧ (5 : Nat) ≠ max 1 (min 5 3) := by
  decide

/-- C10 (amended): for every text whose normalized form does not fuzzy-match
the full-track phrases — that check runs first and yields difficulty 5 —
a non-zero explicit snippet count makes the derived difficulty equal that
count clamped to 1..5, overriding the category-based difficulty. -/
theorem c10_snippet_count_spec (t : String)
    (h1 : fuzzyContains (normalizeText t) FULL_TRACK = false)
    (h2 : countSnippets (normalizeText t) ≠ 0) :
    difficultyFromText t = max 1 (min 5 (countSnippets (normalizeText t))) := by
  have hpos : 0 < countSnippets (normalizeText t) := Nat.pos_of_ne_zero h2
  simp only [difficultyFromText, h1]
  simp [hpos]

set_option maxRecDepth 100000 in
set_option maxHeartbeats 1000000 in
theorem c10_snippet_count_spec_w :
    fuzzyContains (normalizeText "2 тизера") FULL_TRACK = false
    ∧ countSnippets (normalizeText "2 тизера") ≠ 0
    ∧ difficultyFromText "2 тизера"
        = max 1 (min 5 (countSnippets (normalizeText "2 тизера"))) :=
  ⟨by decide, by decide, c10_snippet_count_spec "2 тизера" (by decide) (by decide)⟩

end OgBot
